import Mathlib

/-!
# Verification of the Procure-Smart tabular comparison pipeline

Shallow embedding of `src/single_compare.py` and `src/weighted_compare.py`.

A spreadsheet cell is either missing (`none`, pandas NaN) or a value that
`pd.to_numeric(·, errors := coerce)` either converts to a number
(`Sum.inl q`) or turns into NaN (`Sum.inr s`, a non-numeric string).
Floating point values are modelled by rationals.
-/

abbrev Cell := Option (ℚ ⊕ String)

/-- `pd.to_numeric(cell, errors=coerce)`: numbers pass through, everything
else becomes missing. -/
def toNum (c : Cell) : Option ℚ :=
  c.bind (fun v => match v with | Sum.inl q => some q | Sum.inr _ => none)

/-- `str(cell)` as used by `.astype(str)` for chart labels. -/
def cellToStr (c : Cell) : String :=
  match c with
  | none => "nan"
  | some (Sum.inl q) => toString q
  | some (Sum.inr s) => s

/-- A pandas DataFrame after `reset_index(drop=True)`: column labels (which
are themselves cell values taken from the header row) and the data rows. -/
structure Table where
  cols : List Cell
  rows : List (List Cell)
deriving DecidableEq

/-- The numeric-only frame: same column labels, numeric cells. -/
structure NumTable where
  cols : List Cell
  rows : List (List (Option ℚ))
deriving DecidableEq

/-- `np.nanmin` of a non-empty list (the pipeline never calls it on an
empty one; the `[]` value is arbitrary). -/
def nanmin : List ℚ → ℚ
  | [] => 0
  | [x] => x
  | x :: y :: t => min x (nanmin (y :: t))

/-- `np.nanmax` of a non-empty list. -/
def nanmax : List ℚ → ℚ
  | [] => 0
  | [x] => x
  | x :: y :: t => max x (nanmax (y :: t))

/-- `scale` from `src/weighted_compare.py` lines 15-22: min-max scaling of a
column onto [0,1], inverted when `reverse` (preference "lower"), and the
whole column sent to 0 when it is constant. -/
def scale (data : List ℚ) (reverse : Bool) : List ℚ :=
  if nanmax data - nanmin data = 0 then List.replicate data.length 0
  else if reverse then
    data.map (fun x => 1 - (x - nanmin data) / (nanmax data - nanmin data))
  else data.map (fun x => (x - nanmin data) / (nanmax data - nanmin data))

/-! ## TabularLoader: `detect_valid_data` (src/single_compare.py lines 14-54)

The raw file content is a rectangular grid of cells (`pd.read_csv`/`read_excel`
with `header=None, dtype=object`). -/

/-- `row.dropna().shape[0]`: the number of non-empty cells of a row. -/
def countNonEmpty (r : List Cell) : ℕ := (r.filter (fun c => c.isSome)).length

/-- The `for idx, row in raw_df.iterrows()` scan: the first row with at least
two non-empty cells, together with the rows below it. -/
def findHeader : List (List Cell) → Option (List Cell × List (List Cell))
  | [] => none
  | r :: rest => if 2 ≤ countNonEmpty r then some (r, rest) else findHeader rest

/-- Header assignment (lines 38-42): truncate the header row to the frame
width, or pad it with synthetic `col_N` names. -/
def assignHeaders (headers : List Cell) (w : ℕ) : List Cell :=
  if w ≤ headers.length then headers.take w
  else headers ++
    ((List.range' headers.length (w - headers.length)).map
      (fun i => some (Sum.inr ("col_" ++ toString i))))

/-- Keep the entries of a list whose (0-based) position satisfies `keep`,
numbering from `j`. -/
def keepIdx {α : Type} (keep : ℕ → Bool) : ℕ → List α → List α
  | _, [] => []
  | j, c :: cs =>
    if keep j then c :: keepIdx keep (j + 1) cs else keepIdx keep (j + 1) cs

/-- `df.dropna(axis=0, how=all)`: drop rows whose cells are all missing. -/
def dropEmptyRowsT (t : Table) : Table :=
  ⟨t.cols, t.rows.filter (fun r => r.any (fun c => c.isSome))⟩

/-- `df.dropna(axis=1, how=all)`: drop columns whose cells are all missing. -/
def dropEmptyColsT (t : Table) : Table :=
  ⟨keepIdx (fun j => t.rows.any (fun r => (r.getD j none).isSome)) 0 t.cols,
   t.rows.map (keepIdx (fun j => t.rows.any (fun r => (r.getD j none).isSome)) 0)⟩

/-- `df.copy().apply(pd.to_numeric, errors=coerce)`. -/
def toNumericRows (t : Table) : NumTable :=
  ⟨t.cols, t.rows.map (fun r => r.map toNum)⟩

/-- `numeric_df.dropna(axis=1, how=all)`. -/
def dropEmptyColsN (t : NumTable) : NumTable :=
  ⟨keepIdx (fun j => t.rows.any (fun r => (r.getD j none).isSome)) 0 t.cols,
   t.rows.map (keepIdx (fun j => t.rows.any (fun r => (r.getD j none).isSome)) 0)⟩

/-- `numeric_df.dropna(axis=0, how=all)`. -/
def dropEmptyRowsN (t : NumTable) : NumTable :=
  ⟨t.cols, t.rows.filter (fun r => r.any (fun c => c.isSome))⟩

/-- `df.shape[1]` of the sliced frame: the common row width (the frame read
by pandas is rectangular; an empty slice keeps the original width, which
equals the header row's length). -/
def widthOf (hdr : List Cell) (body : List (List Cell)) : ℕ :=
  match body with
  | [] => hdr.length
  | r :: _ => r.length

/-- The labeled frame: assign column names, drop fully-empty rows then
fully-empty columns (lines 38-45). -/
def dfOf (hdr : List Cell) (body : List (List Cell)) : Table :=
  dropEmptyColsT (dropEmptyRowsT ⟨assignHeaders hdr (widthOf hdr body), body⟩)

/-- The numeric frame: coerce every cell, drop fully-empty columns then
fully-empty rows (lines 48-49). -/
def ndfOf (hdr : List Cell) (body : List (List Cell)) : NumTable :=
  dropEmptyRowsN (dropEmptyColsN (toNumericRows (dfOf hdr body)))

/-- Lines 34-51: everything `detect_valid_data` does once the header row is
found. -/
def buildTables (hdr : List Cell) (body : List (List Cell)) : Table × NumTable :=
  (dfOf hdr body, ndfOf hdr body)

/-- `detect_valid_data` (lines 14-54): find the header row, build the labeled
and numeric frames; with no qualifying row, return two empty frames. -/
def detectValidData (raw : List (List Cell)) : Table × NumTable :=
  match findHeader raw with
  | none => (⟨[], []⟩, ⟨[], []⟩)
  | some (hdr, body) => buildTables hdr body

/-! ## LabelColumnDetector: `_detect_label_column` (lines 65-76) -/

/-- `needle in hay` on lists of characters (python substring test). -/
def hasSubstr (hay : List Char) (needle : List Char) : Bool :=
  match hay with
  | [] => needle.isEmpty
  | _ :: t => needle.isPrefixOf hay || hasSubstr t needle

/-- The fixed keyword list of `_detect_label_column`. -/
def keywords : List String := ["name", "company", "seller", "brand", "product"]

/-- `col in numeric_cols`: membership scan by equality. -/
def elemCell (c : Cell) (l : List Cell) : Bool := l.any (fun x => decide (x = c))

/-- `isinstance(col, str) and any(k in col.lower() for k in keywords)`. -/
def cellKeywordMatch (c : Cell) : Bool :=
  match c with
  | some (Sum.inr s) =>
    keywords.any (fun k => hasSubstr (s.toList.map Char.toLower) k.toList)
  | _ => false

/-- `_detect_label_column(df, numeric_cols)`: first column matching a keyword,
else first column not among the numeric ones, else the first column, else
`None` for a frame with no columns. -/
def detectLabelColumn (cols ncols : List Cell) : Option Cell :=
  match cols.find? cellKeywordMatch with
  | some c => some c
  | none =>
    match cols.find? (fun c => !(elemCell c ncols)) with
    | some c => some c
    | none => cols.head?

/-- Modelled from the spec sentence for the label detector: "keyword list
order breaks ties" — scan the keywords in order and return the first column
matching the earliest keyword.  Written only to compare with
`detectLabelColumn`, which scans columns instead. -/
def detectLabelColumnSpecKw (cols ncols : List Cell) : Option Cell :=
  match keywords.findSome?
      (fun k => cols.find? (fun c =>
        match c with
        | some (Sum.inr s) => hasSubstr (s.toList.map Char.toLower) k.toList
        | _ => false)) with
  | some c => some c
  | none =>
    match cols.find? (fun c => !(elemCell c ncols)) with
    | some c => some c
    | none => cols.head?

/-- The index of the first column with a given label (`df[col]` lookup). -/
def colIdx (cols : List Cell) (p : Cell) : Option ℕ :=
  match cols with
  | [] => none
  | c :: cs => if c = p then some 0 else (colIdx cs p).map (· + 1)

/-! ## SingleParameterComparer: `generate_single_compare_chart` (lines 79-151) -/

/-- Insertion into a sorted list, keeping ties in encounter order. -/
def insertBy {α : Type} (le : α → α → Bool) (a : α) : List α → List α
  | [] => [a]
  | b :: bs => if le a b then a :: b :: bs else b :: insertBy le a bs

/-- A deterministic realisation of `DataFrame.sort_values` (pandas leaves the
order of tied keys unspecified; every claim below is insensitive to it). -/
def sortBy {α : Type} (le : α → α → Bool) (l : List α) : List α :=
  l.foldr (insertBy le) []

/-- Line 114: `top_n = int(top_n) if int(top_n) > 0 else 10`. -/
def effTopN (n : ℤ) : ℕ := if 0 < n then n.toNat else 10

/-- Lines 103-105: coerce the chosen column to numeric and drop the rows
where it is missing, keeping each surviving row (with the coerced value
written back into the column) together with its value. -/
def validParamRows (rows : List (List Cell)) (j : ℕ) : List (List Cell × ℚ) :=
  rows.filterMap (fun r =>
    (toNum (r.getD j none)).map (fun v => (r.set j (some (Sum.inl v)), v)))

/-- The rendered bar chart: category labels, displayed values, the value-axis
scale decision and its label, and how many rows are shown. -/
structure SingleChart where
  labels : List String
  values : List ℚ
  useLog : Bool
  xlabel : String
  preference : String
  topShown : ℕ
deriving DecidableEq

/-- The `ValueError`s of `generate_single_compare_chart`, in raise order:
no usable frames, missing parameter, no label column, no valid rows.
`keyError` models the pandas lookup of a column absent from `df` (provably
unreachable: the numeric columns are a subset of the labeled ones). -/
inductive CErr
  | noData
  | paramNotFound
  | noLabelColumn
  | keyError
  | noValidRows
deriving DecidableEq

/-- Lines 87-107 of `generate_single_compare_chart`: validation, label
detection, coercion of the chosen column and the missing-value drop.
Returns the surviving (row, value) pairs and the label column's index. -/
def singlePrep (raw : List (List Cell)) (parameter : Cell) :
    Except CErr (List (List Cell × ℚ) × ℕ) :=
  if (detectValidData raw).1.rows = [] ∨ (detectValidData raw).1.cols = [] ∨
      (detectValidData raw).2.rows = [] ∨ (detectValidData raw).2.cols = [] then
    .error .noData
  else if elemCell parameter (detectValidData raw).2.cols then
    match detectLabelColumn (detectValidData raw).1.cols
        (detectValidData raw).2.cols with
    | none => .error .noLabelColumn
    | some labelCol =>
      match colIdx (detectValidData raw).1.cols parameter with
      | none => .error .keyError
      | some j =>
        if validParamRows (detectValidData raw).1.rows j = [] then
          .error .noValidRows
        else
          .ok (validParamRows (detectValidData raw).1.rows j,
            (colIdx (detectValidData raw).1.cols labelCol).getD 0)
  else .error .paramNotFound

/-- Lines 109-151: sort by the chosen column ("lower" preference sorts
ascending), cap the rows, decide the value-axis scale, lay out the chart. -/
def renderSingle (working : List (List Cell × ℚ)) (jl : ℕ) (parameter : Cell)
    (top_n : ℤ) (preference : String) : SingleChart :=
  let sorted := sortBy
    (fun a b =>
      if preference = "lower" then decide (a.2 ≤ b.2) else decide (b.2 ≤ a.2))
    working
  let effN := min (effTopN top_n) sorted.length
  let top := sorted.take effN
  let vals := top.map (fun rv => rv.2)
  let useLog := decide (1000 < nanmax vals / max (nanmin vals) (1 / 1000000000))
  { labels := top.map (fun rv => cellToStr (rv.1.getD jl none))
    values := vals
    useLog := useLog
    xlabel :=
      if useLog then cellToStr parameter ++ " (log scale)"
      else cellToStr parameter
    preference := preference
    topShown := effN }

/-- `generate_single_compare_chart(file_path, parameter, top_n, preference)`
over the raw grid the file holds (the `os.path.exists` guard is outside the
model: the path is the grid itself). -/
def generateSingleCompareChart (raw : List (List Cell)) (parameter : Cell)
    (top_n : ℤ) (preference : String) : Except CErr SingleChart :=
  (singlePrep raw parameter).map
    (fun wj => renderSingle wj.1 wj.2 parameter top_n preference)

/-! ## WeightedScorer: `generate_weighted_compare_chart`
(src/weighted_compare.py lines 25-117) -/

/-- `working[working[p] >= min_val]` membership test for one row: a missing
value compares false (pandas NaN comparison) and the row is dropped. -/
def cellGeq (r : List Cell) (j : ℕ) (mn : ℚ) : Bool :=
  match toNum (r.getD j none) with
  | some v => decide (mn ≤ v)
  | none => false

/-- `working[working[p] <= max_val]` membership test for one row. -/
def cellLeq (r : List Cell) (j : ℕ) (mx : ℚ) : Bool :=
  match toNum (r.getD j none) with
  | some v => decide (v ≤ mx)
  | none => false

/-- Lines 56-60 for one parameter: apply its optional min bound, then its
optional max bound. The missing-column case cannot arise for a validated
parameter (pandas would raise there). -/
def rangeStep (cols : List Cell) (p : Cell) (bounds : Option ℚ × Option ℚ)
    (rows : List (List Cell)) : List (List Cell) :=
  match colIdx cols p with
  | none => rows
  | some j =>
    let rows1 := match bounds.1 with
      | none => rows
      | some mn => rows.filter (fun r => cellGeq r j mn)
    match bounds.2 with
    | none => rows1
    | some mx => rows1.filter (fun r => cellLeq r j mx)

/-- Lines 55-60: `for idx, p in enumerate(params)` applying each parameter's
own range filter in turn. -/
def applyRangesW (cols : List Cell) (pr : List (Cell × Option ℚ × Option ℚ))
    (rows : List (List Cell)) : List (List Cell) :=
  pr.foldl (fun rows pq => rangeStep cols pq.1 pq.2 rows) rows

/-- Column `j` of the numeric frame aligned onto row positions `i`, `i+1`, …
of the labeled frame: positions past the numeric frame's row count read
missing (this is exactly pandas index alignment of two range-indexed frames,
the semantics of `working[p] = numeric_df[p]` on line 51). -/
def setColAux (j : ℕ) (vals : List (Option ℚ)) :
    ℕ → List (List Cell) → List (List Cell)
  | _, [] => []
  | i, r :: rs =>
    r.set j ((vals.getD i none).map Sum.inl) :: setColAux j vals (i + 1) rs

/-- Column `p` of `numeric_df` as a list of optional values. -/
def ndfCol (ndf : NumTable) (p : Cell) : List (Option ℚ) :=
  match colIdx ndf.cols p with
  | some j => ndf.rows.map (fun r => r.getD j none)
  | none => []

/-- Lines 49-51: `working = df.copy(); for p in params: working[p] =
numeric_df[p]` — overwrite each requested column of the labeled rows with
the numeric frame's column of the same name, aligned by position. -/
def assignParams (dfcols : List Cell) (ndf : NumTable) (params : List Cell)
    (rows : List (List Cell)) : List (List Cell) :=
  params.foldl (fun rows p =>
    match colIdx dfcols p with
    | some j => setColAux j (ndfCol ndf p) 0 rows
    | none => rows) rows

/-- Line 52: `working.dropna(subset=params)` — keep the rows with a value
present in every requested column. -/
def dropnaSubset (cols : List Cell) (params : List Cell)
    (rows : List (List Cell)) : List (List Cell) :=
  rows.filter (fun r => params.all (fun p =>
    match colIdx cols p with
    | some j => (r.getD j none).isSome
    | none => true))

/-- `working[p].tolist()`: the requested column of the filtered working
frame (every entry present there, so the default is never read). -/
def workingCol (rows : List (List Cell)) (j : ℕ) : List ℚ :=
  rows.map (fun r => (toNum (r.getD j none)).getD 0)

/-- `np.sum(all_scores, axis=0)` over `n`-long rows: the elementwise sum of
the per-parameter weighted score lists (`0` for no parameters). -/
def sumColumns (n : ℕ) (ls : List (List ℚ)) : List ℚ :=
  (List.range n).map (fun i => (ls.map (fun l => l.getD i 0)).sum)

/-- Lines 72-77: for each parameter (column index `js[idx]`), scale its
column (reversed when the preference is "lower") and weight it. -/
def allScoresOf (rows : List (List Cell)) (js : List ℕ) (normw : List ℚ)
    (prefs : List String) : List (List ℚ) :=
  (List.range js.length).map (fun idx =>
    (scale (workingCol rows (js.getD idx 0))
        (prefs.getD idx "" = "lower")).map (fun s => s * normw.getD idx 0))

/-- The error conditions of `generate_weighted_compare_chart`, in raise
order. -/
inductive WErr
  | noData
  | paramNotFound
  | noLabelColumn
  | keyError
  | emptyAfterFilter
  | invalidWeights
  | emptyAfterScore
deriving DecidableEq

/-- The rendered weighted bar chart. -/
structure WChart where
  labels : List String
  scores : List ℚ
  figWidth : ℚ
  filename : String
deriving DecidableEq

/-- Lines 31-89 of `generate_weighted_compare_chart`: everything up to and
including the global score filter.  Returns the scored rows (still in frame
order) and the label column's index. -/
def weightedPrep (raw : List (List Cell)) (params : List Cell)
    (weights : List ℚ) (preferences : List String)
    (ranges : List (Option ℚ × Option ℚ)) (minScore maxScore : Option ℚ) :
    Except WErr (List (List Cell × ℚ) × ℕ) :=
  let df := (detectValidData raw).1
  let ndf := (detectValidData raw).2
  if df.rows = [] ∨ df.cols = [] ∨ ndf.rows = [] ∨ ndf.cols = [] then
    .error .noData
  else if params.all (fun p => elemCell p ndf.cols) then
    match detectLabelColumn df.cols ndf.cols with
    | none => .error .noLabelColumn
    | some labelCol =>
      let working1 := dropnaSubset df.cols params
        (assignParams df.cols ndf params df.rows)
      let working2 := applyRangesW df.cols (params.zip ranges) working1
      if working2 = [] then .error .emptyAfterFilter
      else if weights.sum ≤ 0 then .error .invalidWeights
      else
        let normw := weights.map (fun w => w / weights.sum)
        let js := params.map (fun p => (colIdx df.cols p).getD 0)
        let scores := sumColumns working2.length
          (allScoresOf working2 js normw preferences)
        let pairs := working2.zip scores
        let pairs1 := match minScore with
          | none => pairs
          | some m => pairs.filter (fun rs => decide (m ≤ rs.2))
        let pairs2 := match maxScore with
          | none => pairs1
          | some M => pairs1.filter (fun rs => decide (rs.2 ≤ M))
        if pairs2 = [] then .error .emptyAfterScore
        else .ok (pairs2, (colIdx df.cols labelCol).getD 0)
  else .error .paramNotFound

/-- `DataFrame.head(n)` with pandas semantics: the first `n` rows for
`n ≥ 0`, all but the last `|n|` rows for negative `n`. -/
def headI {α : Type} (n : ℤ) (l : List α) : List α :=
  if 0 ≤ n then l.take n.toNat else l.take (l.length - n.natAbs)

/-- Lines 92-113: sort descending by score, cap at `top_n`, and lay out the
bar chart (labels, bar heights, figure width, generated filename). -/
def renderWeighted (pairs : List (List Cell × ℚ)) (jl : ℕ) (top_n : ℤ)
    (hex : String) : WChart :=
  let sorted := sortBy (fun a b => decide (b.2 ≤ a.2)) pairs
  let top := headI top_n sorted
  let labels := top.map (fun rs => cellToStr (rs.1.getD jl none))
  { labels := labels
    scores := top.map (fun rs => rs.2)
    figWidth := max 10 (min 24 (7 / 10 * (labels.length : ℚ)))
    filename := hex ++ "_weighted_compare.png" }

/-- `generate_weighted_compare_chart(file_path, params, weights, preferences,
ranges, top_n, min_score, max_score)`; `hex` stands for the random
`uuid.uuid4().hex[:10]` prefix of the saved file's name. -/
def generateWeightedCompareChart (raw : List (List Cell)) (params : List Cell)
    (weights : List ℚ) (preferences : List String)
    (ranges : List (Option ℚ × Option ℚ)) (top_n : ℤ)
    (minScore maxScore : Option ℚ) (hex : String) : Except WErr WChart :=
  (weightedPrep raw params weights preferences ranges minScore maxScore).map
    (fun pj => renderWeighted pj.1 pj.2 top_n hex)

/-! ## Concrete inputs used by the closed theorems below -/

/-- A file whose row "A" has a non-numeric Score cell while row "B" has a
numeric one: the numeric frame drops row "A", so `working[p] = numeric_df[p]`
aligns B's value onto A's position. -/
def rawC1 : List (List Cell) :=
  [[some (Sum.inr "Name"), some (Sum.inr "Score")],
   [some (Sum.inr "A"), some (Sum.inr "x")],
   [some (Sum.inr "B"), some (Sum.inl 5)]]

/-- A well-behaved two-row file: labels X, Y with values 1, 2. -/
def rawOK : List (List Cell) :=
  [[some (Sum.inr "Name"), some (Sum.inr "Score")],
   [some (Sum.inr "X"), some (Sum.inl 1)],
   [some (Sum.inr "Y"), some (Sum.inl 2)]]

/-- A file with no row holding two non-empty cells. -/
def rawJunk : List (List Cell) :=
  [[some (Sum.inr "x"), none], [none, none]]

/-- The chart `generate_single_compare_chart` renders for `rawOK`,
parameter "Score", `top_n = 10`, preference "lower". -/
def chartOK : SingleChart :=
  ⟨["X", "Y"], [1, 2], false, "Score", "lower", 2⟩

/-! ## Helper lemmas -/

section ScaleLemmas

theorem nanmin_le {l : List ℚ} {x : ℚ} (hx : x ∈ l) : nanmin l ≤ x := by
  induction l with
  | nil => cases hx
  | cons a t ih =>
    cases t with
    | nil =>
      rw [List.mem_singleton.mp hx]
      exact le_refl _
    | cons b u =>
      rcases List.mem_cons.mp hx with rfl | h
      · exact min_le_left _ _
      · exact le_trans (min_le_right _ _) (ih h)

theorem le_nanmax {l : List ℚ} {x : ℚ} (hx : x ∈ l) : x ≤ nanmax l := by
  induction l with
  | nil => cases hx
  | cons a t ih =>
    cases t with
    | nil =>
      rw [List.mem_singleton.mp hx]
      exact le_refl _
    | cons b u =>
      rcases List.mem_cons.mp hx with rfl | h
      · exact le_max_left _ _
      · exact le_trans (ih h) (le_max_right _ _)

theorem nanmin_mem {l : List ℚ} (h : l ≠ []) : nanmin l ∈ l := by
  induction l with
  | nil => exact absurd rfl h
  | cons a t ih =>
    cases t with
    | nil => simp [nanmin]
    | cons b u =>
      have hmin : nanmin (a :: b :: u) = min a (nanmin (b :: u)) := rfl
      rcases min_cases a (nanmin (b :: u)) with ⟨heq, _⟩ | ⟨heq, _⟩
      · rw [hmin, heq]
        exact List.mem_cons_self a _
      · rw [hmin, heq]
        exact List.mem_cons_of_mem a (ih (by simp))

theorem nanmax_mem {l : List ℚ} (h : l ≠ []) : nanmax l ∈ l := by
  induction l with
  | nil => exact absurd rfl h
  | cons a t ih =>
    cases t with
    | nil => simp [nanmax]
    | cons b u =>
      have hmax : nanmax (a :: b :: u) = max a (nanmax (b :: u)) := rfl
      rcases max_cases a (nanmax (b :: u)) with ⟨heq, _⟩ | ⟨heq, _⟩
      · rw [hmax, heq]
        exact List.mem_cons_self a _
      · rw [hmax, heq]
        exact List.mem_cons_of_mem a (ih (by simp))

theorem scale_length (data : List ℚ) (rev : Bool) :
    (scale data rev).length = data.length := by
  unfold scale
  split
  · exact List.length_replicate _ _
  · split <;> exact List.length_map _ _

/-- Every scaled value of a non-empty column lies in [0,1]. -/
theorem scale_mem_bounds {data : List ℚ} (rev : Bool) {s : ℚ}
    (hs : s ∈ scale data rev) : 0 ≤ s ∧ s ≤ 1 := by
  unfold scale at hs
  split at hs
  · rw [List.eq_of_mem_replicate hs]
    norm_num
  · rename_i hne
    have hd : data ≠ [] := by
      intro h
      rw [h] at hne
      simp [nanmin, nanmax] at hne
    have hle : nanmin data ≤ nanmax data := nanmin_le (nanmax_mem hd)
    have hpos : 0 < nanmax data - nanmin data := by
      rcases lt_or_eq_of_le hle with h | h
      · linarith
      · exact absurd (by linarith : nanmax data - nanmin data = 0) hne
    split at hs
    · rcases List.mem_map.mp hs with ⟨x, hx, rfl⟩
      have h0 : 0 ≤ (x - nanmin data) / (nanmax data - nanmin data) :=
        div_nonneg (sub_nonneg.mpr (nanmin_le hx)) (le_of_lt hpos)
      have h1 : (x - nanmin data) / (nanmax data - nanmin data) ≤ 1 :=
        (div_le_one hpos).mpr (by linarith [le_nanmax hx])
      exact ⟨by linarith, by linarith⟩
    · rcases List.mem_map.mp hs with ⟨x, hx, rfl⟩
      have h0 : 0 ≤ (x - nanmin data) / (nanmax data - nanmin data) :=
        div_nonneg (sub_nonneg.mpr (nanmin_le hx)) (le_of_lt hpos)
      have h1 : (x - nanmin data) / (nanmax data - nanmin data) ≤ 1 :=
        (div_le_one hpos).mpr (by linarith [le_nanmax hx])
      exact ⟨h0, h1⟩

end ScaleLemmas

example : scale [1, 3] false = [0, 1] := by norm_num [scale, nanmin, nanmax]
example : scale [1, 3] true = [1, 0] := by norm_num [scale, nanmin, nanmax]
example : scale [5, 5] true = [0, 0] := by
  norm_num [scale, nanmin, nanmax, List.replicate]

theorem findHeader_eq_none {l : List (List Cell)}
    (h : ∀ r ∈ l, countNonEmpty r < 2) : findHeader l = none := by
  induction l with
  | nil => rfl
  | cons r rest ih =>
    have hr : ¬ 2 ≤ countNonEmpty r := not_le.mpr (h r (List.mem_cons_self _ _))
    simp only [findHeader, if_neg hr]
    exact ih (fun r' hr' => h r' (List.mem_cons_of_mem _ hr'))

theorem findHeader_first {l : List (List Cell)} {i : ℕ} (hi : i < l.length)
    (hq : 2 ≤ countNonEmpty (l.get ⟨i, hi⟩))
    (hfst : ∀ i' (hi' : i' < l.length), i' < i →
      countNonEmpty (l.get ⟨i', hi'⟩) < 2) :
    findHeader l = some (l.get ⟨i, hi⟩, l.drop (i + 1)) := by
  induction l generalizing i with
  | nil => cases hi
  | cons r rest ih =>
    cases i with
    | zero =>
      simp only [List.get] at hq
      simp only [findHeader, if_pos hq, List.get, List.drop]
    | succ n =>
      have hr : countNonEmpty r < 2 :=
        hfst 0 (Nat.zero_lt_succ _) (Nat.succ_pos n)
      simp only [findHeader, if_neg (not_le.mpr hr)]
      exact ih (Nat.lt_of_succ_lt_succ hi) hq
        (fun i' hi' hlt =>
          hfst (i' + 1) (Nat.succ_lt_succ hi') (Nat.succ_lt_succ hlt))

/-! ## The claims -/

/-- C5: `detect_valid_data` selects as header the first row, scanning top to
bottom, with at least two non-empty cells (the tables are then built from it
and the rows below it); when no row qualifies it returns two empty tables
instead of raising. -/
theorem spec_C5 (raw : List (List Cell)) :
    ((∀ r ∈ raw, countNonEmpty r < 2) →
      detectValidData raw = (⟨[], []⟩, ⟨[], []⟩)) ∧
    (∀ i (hi : i < raw.length), 2 ≤ countNonEmpty (raw.get ⟨i, hi⟩) →
      (∀ i' (hi' : i' < raw.length), i' < i →
        countNonEmpty (raw.get ⟨i', hi'⟩) < 2) →
      detectValidData raw = buildTables (raw.get ⟨i, hi⟩) (raw.drop (i + 1))) := by
  constructor
  · intro h
    simp only [detectValidData, findHeader_eq_none h]
  · intro i hi hq hfst
    simp only [detectValidData, findHeader_first hi hq hfst]

/-- C1, evaluated at `rawC1`: the weighted pipeline keeps the row labeled
"A" (whose own Score cell does not coerce to a number) and scores it with
row "B"'s value, while dropping "B" — the misalignment introduced by
`working[p] = numeric_df[p]` after `numeric_df` dropped a row. -/
theorem spec_C1_eval :
    generateWeightedCompareChart rawC1 [some (Sum.inr "Score")] [1] ["higher"]
        [(none, none)] 10 none none "h" =
      .ok ⟨["A"], [0], 10, "h_weighted_compare.png"⟩ ∧
    (detectValidData rawC1).1.rows.map
        (fun r => (cellToStr (r.getD 0 none), toNum (r.getD 1 none))) =
      [("A", none), ("B", some 5)] := by
  constructor
  · simp +decide [generateWeightedCompareChart, weightedPrep, detectValidData,
      List.find?, Except.map, findHeader, countNonEmpty, buildTables, dfOf,
      ndfOf, widthOf, assignHeaders, dropEmptyRowsT, dropEmptyColsT, toNumericRows,
      dropEmptyColsN, dropEmptyRowsN, keepIdx, toNum, detectLabelColumn,
      cellKeywordMatch, keywords, hasSubstr, elemCell, colIdx, assignParams,
      setColAux, ndfCol, dropnaSubset, applyRangesW, rangeStep, sumColumns,
      allScoresOf, workingCol, scale, nanmin, nanmax, renderWeighted, headI,
      sortBy, insertBy, cellToStr, rawC1, List.replicate]
    norm_num
  · simp +decide [detectValidData, List.find?, findHeader, countNonEmpty,
      buildTables, dfOf, ndfOf, widthOf, assignHeaders, dropEmptyRowsT,
      dropEmptyColsT,
      toNumericRows, dropEmptyColsN, dropEmptyRowsN, keepIdx, toNum,
      cellToStr, rawC1]

theorem getD_map_of_lt {α β : Type} (f : α → β) (l : List α) {i : ℕ}
    (h : i < l.length) (d : β) (d0 : α) :
    (l.map f).getD i d = f (l.getD i d0) := by
  induction l generalizing i with
  | nil => cases h
  | cons a t ih =>
    cases i with
    | zero => rfl
    | succ n => exact ih (Nat.lt_of_succ_lt_succ h) 

/-- C4: a scored column with identical values across all filtered rows is
scaled to 0 for every row, under either preference direction. -/
theorem spec_C4 (rows : List (List Cell)) (j : ℕ) (rev : Bool)
    (hconst : ∀ x ∈ workingCol rows j, ∀ y ∈ workingCol rows j, x = y) :
    scale (workingCol rows j) rev = List.replicate rows.length 0 := by
  have hlen : (workingCol rows j).length = rows.length := List.length_map _ _
  rcases eq_or_ne (workingCol rows j) [] with hd | hd
  · have h0 : rows.length = 0 := by rw [← hlen, hd]; rfl
    rw [hd, h0]
    simp [scale, nanmin, nanmax]
  · have heq : nanmax (workingCol rows j) = nanmin (workingCol rows j) :=
      hconst _ (nanmax_mem hd) _ (nanmin_mem hd)
    have h0 : nanmax (workingCol rows j) - nanmin (workingCol rows j) = 0 := by
      rw [heq]; ring
    unfold scale
    rw [if_pos h0, hlen]

/-- C4 applied to a concrete constant column. -/
theorem spec_C4_witness :
    scale (workingCol [[some (Sum.inl 5)], [some (Sum.inl 5)]] 0) true =
      List.replicate 2 0 :=
  spec_C4 [[some (Sum.inl 5)], [some (Sum.inl 5)]] 0 true (by decide)

/-- C3 as stated is false: on a constant column both preference directions
scale to 0, so swapping "higher" to "lower" does not replace s = 0 with
1 - s = 1. -/
theorem spec_C3_counterexample :
    (scale (workingCol [[some (Sum.inl 5)], [some (Sum.inl 5)]] 0) false).getD 0 0
        = 0 ∧
    (scale (workingCol [[some (Sum.inl 5)], [some (Sum.inl 5)]] 0) true).getD 0 0
        ≠ 1 -
      (scale (workingCol [[some (Sum.inl 5)], [some (Sum.inl 5)]] 0) false).getD 0 0 := by
  norm_num [scale, workingCol, toNum, nanmin, nanmax, List.replicate]

/-- C3 (amended): provided the column is not constant over the filtered rows,
swapping its preference from "higher" to "lower" replaces its scaled value s
with 1 - s on every row. -/
theorem spec_C3 (rows : List (List Cell)) (j i : ℕ)
    (hne : nanmax (workingCol rows j) - nanmin (workingCol rows j) ≠ 0)
    (hi : i < rows.length) :
    (scale (workingCol rows j) true).getD i 0 =
      1 - (scale (workingCol rows j) false).getD i 0 := by
  have hlen : i < (workingCol rows j).length := by
    rw [workingCol, List.length_map]
    exact hi
  unfold scale
  rw [if_neg hne, if_neg hne, if_pos rfl, if_neg (fun h => Bool.false_ne_true h)]
  rw [getD_map_of_lt _ _ hlen _ 0, getD_map_of_lt _ _ hlen _ 0]

/-- C3 (amended) applied to a concrete non-constant column. -/
theorem spec_C3_witness :
    (scale (workingCol [[some (Sum.inl 1)], [some (Sum.inl 3)]] 0) true).getD 0 0
      = 1 -
      (scale (workingCol [[some (Sum.inl 1)], [some (Sum.inl 3)]] 0) false).getD 0 0 :=
  spec_C3 [[some (Sum.inl 1)], [some (Sum.inl 3)]] 0 0
    (by norm_num [workingCol, toNum, nanmin, nanmax]) (by norm_num)

theorem getD_mem_of_lt {α : Type} (l : List α) {i : ℕ} (h : i < l.length)
    (d : α) : l.getD i d ∈ l := by
  induction l generalizing i with
  | nil => cases h
  | cons a t ih =>
    cases i with
    | zero => exact List.mem_cons_self _ _
    | succ n => exact List.mem_cons_of_mem _ (ih (Nat.lt_of_succ_lt_succ h))

theorem sum_range_getD (l : List ℚ) :
    ((List.range l.length).map (fun i => l.getD i 0)).sum = l.sum := by
  induction l with
  | nil => rfl
  | cons a t ih =>
    rw [List.length_cons, List.range_succ_eq_map]
    simp only [List.map_cons, List.map_map, List.sum_cons]
    have hmap :
        List.map ((fun i => (a :: t).getD i 0) ∘ Nat.succ) (List.range t.length)
          = List.map (fun i => t.getD i 0) (List.range t.length) := rfl
    rw [hmap, ih]
    rfl

theorem sum_map_div (l : List ℚ) (S : ℚ) :
    (l.map (fun w => w / S)).sum = l.sum / S := by
  induction l with
  | nil => simp
  | cons a t ih => simp [ih, add_div]

/-- C2: over any filtered row set and any all-positive weight vector, every
scaled per-column value and every composite weighted score lies in [0,1]. -/
theorem spec_C2 (rows : List (List Cell)) (js : List ℕ) (weights : List ℚ)
    (prefs : List String) (hw : ∀ w ∈ weights, 0 < w)
    (hlen : js.length = weights.length) :
    (∀ j ∈ js, ∀ rev : Bool, ∀ s ∈ scale (workingCol rows j) rev,
      0 ≤ s ∧ s ≤ 1) ∧
    (∀ sc ∈ sumColumns rows.length
        (allScoresOf rows js (weights.map (fun w => w / weights.sum)) prefs),
      0 ≤ sc ∧ sc ≤ 1) := by
  constructor
  · intro j _ rev s hs
    exact scale_mem_bounds rev hs
  · intro sc hsc
    rcases List.mem_map.mp hsc with ⟨i, hir, rfl⟩
    have hi : i < rows.length := List.mem_range.mp hir
    rw [allScoresOf, List.map_map]
    have hterm : ∀ idx ∈ List.range js.length,
        ((fun l => l.getD i 0) ∘ fun idx =>
            (scale (workingCol rows (js.getD idx 0))
              (prefs.getD idx "" = "lower")).map
              (fun s => s * (weights.map (fun w => w / weights.sum)).getD idx 0))
          idx
        = (scale (workingCol rows (js.getD idx 0))
            (prefs.getD idx "" = "lower")).getD i 0 *
          (weights.map (fun w => w / weights.sum)).getD idx 0 := by
      intro idx _
      have hilen : i < (scale (workingCol rows (js.getD idx 0))
          (prefs.getD idx "" = "lower")).length := by
        rw [scale_length, workingCol, List.length_map]
        exact hi
      exact getD_map_of_lt _ _ hilen _ 0
    have hsbounds : ∀ idx, 0 ≤ (scale (workingCol rows (js.getD idx 0))
        (prefs.getD idx "" = "lower")).getD i 0 ∧
        (scale (workingCol rows (js.getD idx 0))
          (prefs.getD idx "" = "lower")).getD i 0 ≤ 1 := by
      intro idx
      have hilen : i < (scale (workingCol rows (js.getD idx 0))
          (prefs.getD idx "" = "lower")).length := by
        rw [scale_length, workingCol, List.length_map]
        exact hi
      exact scale_mem_bounds _ (getD_mem_of_lt _ hilen 0)
    have hwnn : ∀ idx ∈ List.range js.length,
        0 ≤ (weights.map (fun w => w / weights.sum)).getD idx 0 := by
      intro idx hidx
      have hidx' : idx < weights.length := hlen ▸ List.mem_range.mp hidx
      rw [getD_map_of_lt _ _ hidx' _ 0]
      have hne : weights ≠ [] := by
        intro h
        rw [h] at hidx'
        cases hidx'
      have hS : 0 < weights.sum := List.sum_pos weights hw hne
      exact div_nonneg (le_of_lt (hw _ (getD_mem_of_lt _ hidx' 0))) (le_of_lt hS)
    constructor
    · apply List.sum_nonneg
      intro x hx
      rcases List.mem_map.mp hx with ⟨idx, hidx, rfl⟩
      rw [hterm idx hidx]
      exact mul_nonneg (hsbounds idx).1 (hwnn idx hidx)
    · have hle : (List.map ((fun l => l.getD i 0) ∘ fun idx =>
          (scale (workingCol rows (js.getD idx 0))
            (prefs.getD idx "" = "lower")).map
            (fun s => s * (weights.map (fun w => w / weights.sum)).getD idx 0))
          (List.range js.length)).sum ≤
          (List.map (fun idx =>
            (weights.map (fun w => w / weights.sum)).getD idx 0)
            (List.range js.length)).sum := by
        apply List.sum_le_sum
        intro idx hidx
        rw [hterm idx hidx]
        calc (scale (workingCol rows (js.getD idx 0))
              (prefs.getD idx "" = "lower")).getD i 0 *
              (weights.map (fun w => w / weights.sum)).getD idx 0
            ≤ 1 * (weights.map (fun w => w / weights.sum)).getD idx 0 :=
              mul_le_mul_of_nonneg_right (hsbounds idx).2 (hwnn idx hidx)
          _ = (weights.map (fun w => w / weights.sum)).getD idx 0 := one_mul _
      refine le_trans hle ?_
      cases hweq : weights with
      | nil =>
        have : js.length = 0 := by rw [hlen, hweq]; rfl
        rw [this]
        norm_num
      | cons w ws =>
        have hne : weights ≠ [] := by rw [hweq]; exact List.cons_ne_nil _ _
        rw [← hweq]
        have hS : 0 < weights.sum := List.sum_pos weights hw hne
        have hk : js.length = (weights.map (fun w => w / weights.sum)).length := by
          rw [List.length_map]
          exact hlen
        rw [hk, sum_range_getD, sum_map_div, div_self (ne_of_gt hS)]

theorem mem_rangeStep {cols : List Cell} {p : Cell}
    {bounds : Option ℚ × Option ℚ} {rows : List (List Cell)} {r : List Cell} :
    r ∈ rangeStep cols p bounds rows ↔
      r ∈ rows ∧ ∀ j, colIdx cols p = some j →
        (∀ mn, bounds.1 = some mn → cellGeq r j mn = true) ∧
        (∀ mx, bounds.2 = some mx → cellLeq r j mx = true) := by
  rcases bounds with ⟨mno, mxo⟩
  unfold rangeStep
  cases hj : colIdx cols p with
  | none => simp
  | some j =>
    cases mno with
    | none =>
      cases mxo with
      | none => simp
      | some mx => simp [List.mem_filter]
    | some mn =>
      cases mxo with
      | none => simp [List.mem_filter, and_assoc]
      | some mx =>
        simp [List.mem_filter, and_assoc]
        exact fun _ => and_comm

/-- C9: a row survives the per-parameter range filters exactly when it was
in the filtered set and, for every requested parameter with a column, its
value passes every bound that is present (an absent bound imposes nothing);
and the bound tests are inclusive: a value equal to the bound passes. -/
theorem spec_C9 (cols : List Cell) (pr : List (Cell × Option ℚ × Option ℚ))
    (rows : List (List Cell)) (r : List Cell) :
    (r ∈ applyRangesW cols pr rows ↔
      r ∈ rows ∧ ∀ pq ∈ pr, ∀ j, colIdx cols pq.1 = some j →
        (∀ mn, pq.2.1 = some mn → cellGeq r j mn = true) ∧
        (∀ mx, pq.2.2 = some mx → cellLeq r j mx = true)) ∧
    (∀ j v, toNum (r.getD j none) = some v →
      cellGeq r j v = true ∧ cellLeq r j v = true) := by
  constructor
  · induction pr generalizing rows with
    | nil => simp [applyRangesW]
    | cons pq t ih =>
      have hstep : applyRangesW cols (pq :: t) rows
          = applyRangesW cols t (rangeStep cols pq.1 pq.2 rows) := rfl
      rw [hstep, ih, mem_rangeStep, List.forall_mem_cons]
      tauto
  · intro j v hv
    constructor
    · unfold cellGeq
      rw [hv]
      simp
    · unfold cellLeq
      rw [hv]
      simp

theorem find?_first {α : Type} (p : α → Bool) (l : List α) {i : ℕ}
    (hi : i < l.length) (hp : p (l.get ⟨i, hi⟩) = true)
    (hfst : ∀ i' (hi' : i' < l.length), i' < i → p (l.get ⟨i', hi'⟩) = false) :
    l.find? p = some (l.get ⟨i, hi⟩) := by
  induction l generalizing i with
  | nil => cases hi
  | cons a t ih =>
    cases i with
    | zero =>
      simp only [List.get] at hp
      simp [List.find?, hp]
    | succ n =>
      have ha : p a = false := hfst 0 (Nat.zero_lt_succ _) (Nat.succ_pos n)
      simp only [List.find?, ha]
      exact ih (Nat.lt_of_succ_lt_succ hi) hp
        (fun i' hi' hlt =>
          hfst (i' + 1) (Nat.succ_lt_succ hi') (Nat.succ_lt_succ hlt))

theorem elemCell_iff {c : Cell} {l : List Cell} : elemCell c l = true ↔ c ∈ l := by
  simp only [elemCell, List.any_eq_true, decide_eq_true_eq]
  constructor
  · rintro ⟨x, hx, rfl⟩
    exact hx
  · intro h
    exact ⟨c, h, rfl⟩

/-- C6 (amended): `_detect_label_column` returns the first column, in column
scan order, whose name matches any keyword; failing that the first column
outside the numeric set; failing that the first column; and `None` for a
frame with zero columns. -/
theorem spec_C6 (cols ncols : List Cell) :
    (∀ i (hi : i < cols.length), cellKeywordMatch (cols.get ⟨i, hi⟩) = true →
      (∀ i' (hi' : i' < cols.length), i' < i →
        cellKeywordMatch (cols.get ⟨i', hi'⟩) = false) →
      detectLabelColumn cols ncols = some (cols.get ⟨i, hi⟩)) ∧
    ((∀ c ∈ cols, cellKeywordMatch c = false) →
      ∀ i (hi : i < cols.length), cols.get ⟨i, hi⟩ ∉ ncols →
      (∀ i' (hi' : i' < cols.length), i' < i → cols.get ⟨i', hi'⟩ ∈ ncols) →
      detectLabelColumn cols ncols = some (cols.get ⟨i, hi⟩)) ∧
    ((∀ c ∈ cols, cellKeywordMatch c = false ∧ c ∈ ncols) →
      detectLabelColumn cols ncols = cols.head?) ∧
    (cols = [] → detectLabelColumn cols ncols = none) := by
  refine ⟨?_, ?_, ?_, ?_⟩
  · intro i hi hp hfst
    simp only [detectLabelColumn, find?_first cellKeywordMatch cols hi hp hfst]
  · intro hnokw i hi hnotin hfst
    have hkw : cols.find? cellKeywordMatch = none :=
      List.find?_eq_none.mpr (fun x hx => by simp [hnokw x hx])
    have hp : (fun c => !(elemCell c ncols)) (cols.get ⟨i, hi⟩) = true := by
      simp only [Bool.not_eq_true']
      exact (Bool.eq_false_iff).mpr (fun h => hnotin (elemCell_iff.mp h))
    have hfst' : ∀ i' (hi' : i' < cols.length), i' < i →
        (fun c => !(elemCell c ncols)) (cols.get ⟨i', hi'⟩) = false := by
      intro i' hi' hlt
      simp only [Bool.not_eq_false']
      exact elemCell_iff.mpr (hfst i' hi' hlt)
    simp only [detectLabelColumn, hkw,
      find?_first (fun c => !(elemCell c ncols)) cols hi hp hfst']
  · intro hall
    have hkw : cols.find? cellKeywordMatch = none :=
      List.find?_eq_none.mpr (fun x hx => by simp [(hall x hx).1])
    have hnn : cols.find? (fun c => !(elemCell c ncols)) = none :=
      List.find?_eq_none.mpr (fun x hx => by
        simp [elemCell_iff.mpr (hall x hx).2])
    simp only [detectLabelColumn, hkw, hnn]
  · intro h
    rw [h]
    rfl

/-- C6 as stated is false: with columns ["Brand", "Name"] (both keyword
matches, so a tie) the code returns "Brand", the first matching column in
column order, while keyword-list order ("name" before "brand") would pick
"Name". -/
theorem spec_C6_counterexample :
    detectLabelColumn [some (Sum.inr "Brand"), some (Sum.inr "Name")] []
        = some (some (Sum.inr "Brand")) ∧
    detectLabelColumnSpecKw [some (Sum.inr "Brand"), some (Sum.inr "Name")] []
        = some (some (Sum.inr "Name")) ∧
    cellKeywordMatch (some (Sum.inr "Brand")) = true ∧
    cellKeywordMatch (some (Sum.inr "Name")) = true := by
  refine ⟨?_, ?_, ?_, ?_⟩ <;> decide

theorem keepIdx_subset {α : Type} (keep : ℕ → Bool) (j : ℕ) (l : List α) :
    ∀ x ∈ keepIdx keep j l, x ∈ l := by
  induction l generalizing j with
  | nil => intro x hx; cases hx
  | cons a t ih =>
    intro x hx
    simp only [keepIdx] at hx
    split at hx
    · rcases List.mem_cons.mp hx with rfl | h
      · exact List.mem_cons_self _ _
      · exact List.mem_cons_of_mem _ (ih (j + 1) x h)
    · exact List.mem_cons_of_mem _ (ih (j + 1) x hx)

/-- The numeric frame's columns are a subset of the labeled frame's. -/
theorem ndf_cols_subset (raw : List (List Cell)) :
    ∀ c ∈ (detectValidData raw).2.cols, c ∈ (detectValidData raw).1.cols := by
  unfold detectValidData
  cases findHeader raw with
  | none => intro c hc; cases hc
  | some hb =>
    rcases hb with ⟨hdr, body⟩
    intro c hc
    exact keepIdx_subset _ 0 _ c hc

theorem colIdx_isSome_of_mem {cols : List Cell} {p : Cell} (h : p ∈ cols) :
    ∃ j, colIdx cols p = some j := by
  induction cols with
  | nil => cases h
  | cons c cs ih =>
    by_cases hc : c = p
    · exact ⟨0, by simp [colIdx, hc]⟩
    · rcases List.mem_cons.mp h with rfl | h'
      · exact absurd rfl hc
      · rcases ih h' with ⟨j, hj⟩
        exact ⟨j + 1, by simp [colIdx, hc, hj]⟩

/-- A frame with at least one column always yields a label column (the
last fallback returns the first column). -/
theorem detectLabelColumn_isSome (cols ncols : List Cell) (h : cols ≠ []) :
    ∃ c, detectLabelColumn cols ncols = some c := by
  unfold detectLabelColumn
  cases h1 : cols.find? cellKeywordMatch with
  | some c => exact ⟨c, rfl⟩
  | none =>
    cases h2 : cols.find? (fun c => !(elemCell c ncols)) with
    | some c => exact ⟨c, rfl⟩
    | none =>
      cases cols with
      | nil => exact absurd rfl h
      | cons a t => exact ⟨a, rfl⟩

/-- C7: given non-empty frames, the bar comparison fails with
`ParameterNotFound` exactly when the parameter is absent from the numeric
frame's columns, and with `NoValidData` (the no-valid-rows error) exactly
when, after coercing the chosen column and dropping rows missing it, no
row remains. -/
theorem spec_C7 (raw : List (List Cell)) (p : Cell) (tn : ℤ) (pref : String)
    (hdf : ¬ ((detectValidData raw).1.rows = [] ∨
      (detectValidData raw).1.cols = [] ∨
      (detectValidData raw).2.rows = [] ∨ (detectValidData raw).2.cols = [])) :
    (generateSingleCompareChart raw p tn pref = .error .paramNotFound ↔
      p ∉ (detectValidData raw).2.cols) ∧
    (generateSingleCompareChart raw p tn pref = .error .noValidRows ↔
      p ∈ (detectValidData raw).2.cols ∧
      validParamRows (detectValidData raw).1.rows
        ((colIdx (detectValidData raw).1.cols p).getD 0) = []) := by
  rcases Classical.em (p ∈ (detectValidData raw).2.cols) with hmem | hmem
  · have hel : elemCell p (detectValidData raw).2.cols = true :=
      elemCell_iff.mpr hmem
    have hcols : (detectValidData raw).1.cols ≠ [] := fun h =>
      hdf (Or.inr (Or.inl h))
    rcases detectLabelColumn_isSome (detectValidData raw).1.cols
      (detectValidData raw).2.cols hcols with ⟨lc, hlc⟩
    rcases colIdx_isSome_of_mem (ndf_cols_subset raw p hmem) with ⟨j, hj⟩
    by_cases hempty : validParamRows (detectValidData raw).1.rows j = []
    · have hgen : generateSingleCompareChart raw p tn pref =
          .error .noValidRows := by
        simp only [generateSingleCompareChart, singlePrep, if_neg hdf, hel,
          if_true, hlc, hj, if_pos hempty, Except.map]
      rw [hgen]
      constructor
      · simp [hmem]
      · simp [hmem, hj, hempty]
    · have hgen : generateSingleCompareChart raw p tn pref =
          .ok (renderSingle (validParamRows (detectValidData raw).1.rows j)
            ((colIdx (detectValidData raw).1.cols lc).getD 0) p tn pref) := by
        simp only [generateSingleCompareChart, singlePrep, if_neg hdf, hel,
          if_true, hlc, hj, if_neg hempty, Except.map]
      rw [hgen]
      constructor
      · simp [hmem]
      · simp [hj, hempty]
  · have hel : elemCell p (detectValidData raw).2.cols = false := by
      rcases Bool.eq_false_or_eq_true
        (elemCell p (detectValidData raw).2.cols) with h | h
      · exact absurd (elemCell_iff.mp h) hmem
      · exact h
    have hgen : generateSingleCompareChart raw p tn pref =
        .error .paramNotFound := by
      simp only [generateSingleCompareChart, singlePrep, if_neg hdf, hel,
        Bool.false_eq_true, if_false, Except.map]
    rw [hgen]
    constructor
    · simp [hmem]
    · simp [hmem]

theorem insertBy_length {α : Type} (le : α → α → Bool) (a : α) (l : List α) :
    (insertBy le a l).length = l.length + 1 := by
  induction l with
  | nil => rfl
  | cons b bs ih =>
    simp only [insertBy]
    split
    · rfl
    · simp only [List.length_cons, ih]

theorem sortBy_length {α : Type} (le : α → α → Bool) (l : List α) :
    (sortBy le l).length = l.length := by
  induction l with
  | nil => rfl
  | cons a t ih =>
    have hstep : sortBy le (a :: t) = insertBy le a (sortBy le t) := rfl
    rw [hstep, insertBy_length, ih, List.length_cons]

theorem effTopN_pos (n : ℤ) : 1 ≤ effTopN n := by
  unfold effTopN
  split
  · rename_i h
    omega
  · norm_num

theorem singlePrep_ok_nonempty {raw : List (List Cell)} {p : Cell}
    {wj : List (List Cell × ℚ) × ℕ} (h : singlePrep raw p = .ok wj) :
    wj.1 ≠ [] := by
  unfold singlePrep at h
  split at h
  · cases h
  · split at h
    · split at h
      · cases h
      · split at h
        · cases h
        · split at h
          · cases h
          · rename_i hne
            injection h with h1
            rw [← h1]
            exact hne
    · cases h

/-- C8: whenever the bar comparison succeeds, its value axis is logarithmic
exactly when the ratio of the largest displayed value to the smallest
(floored to 1e-9) exceeds 1000 — and then "(log scale)" is appended to the
axis label; the displayed values are never empty. -/
theorem spec_C8 (raw : List (List Cell)) (p : Cell) (tn : ℤ) (pref : String)
    (c : SingleChart)
    (h : generateSingleCompareChart raw p tn pref = .ok c) :
    (c.useLog = true ↔
      1000 < nanmax c.values / max (nanmin c.values) (1 / 1000000000)) ∧
    c.xlabel = (if c.useLog then cellToStr p ++ " (log scale)"
      else cellToStr p) ∧
    c.values ≠ [] := by
  rw [generateSingleCompareChart] at h
  cases hp : singlePrep raw p with
  | error e =>
    rw [hp] at h
    simp only [Except.map] at h
    cases h
  | ok wj =>
    rw [hp] at h
    simp only [Except.map] at h
    injection h with h1
    subst h1
    refine ⟨?_, ?_, ?_⟩
    · simp only [renderSingle, decide_eq_true_eq]
    · rfl
    · have hw : wj.1 ≠ [] := singlePrep_ok_nonempty hp
      have hlen1 : 1 ≤ (sortBy (fun a b =>
          if pref = "lower" then decide (a.2 ≤ b.2) else decide (b.2 ≤ a.2))
          wj.1).length := by
        rw [sortBy_length]
        exact List.length_pos.mpr hw
      intro hv
      have hlen0 : (renderSingle wj.1 wj.2 p tn pref).values.length = 0 := by
        rw [hv]
        rfl
      simp only [renderSingle, List.length_map, List.length_take] at hlen0
      have hpos := effTopN_pos tn
      omega

/-- C10: the weighted comparison applies `top_n` as supplied — with
`top_n = 0` a run that would succeed still succeeds, rendering zero bars
and returning the generated filename — while the single comparison replaces
a non-positive `top_n` by the default 10. -/
theorem spec_C10 (raw : List (List Cell)) (params : List Cell)
    (weights : List ℚ) (prefs : List String)
    (ranges : List (Option ℚ × Option ℚ)) (ms Ms : Option ℚ) (hex : String)
    (tn : ℤ) (c : WChart)
    (h : generateWeightedCompareChart raw params weights prefs ranges tn ms Ms
      hex = .ok c) :
    generateWeightedCompareChart raw params weights prefs ranges 0 ms Ms hex =
      .ok ⟨[], [], 10, hex ++ "_weighted_compare.png"⟩ ∧
    (∀ raw2 p pref2, generateSingleCompareChart raw2 p 0 pref2 =
      generateSingleCompareChart raw2 p 10 pref2) := by
  constructor
  · rw [generateWeightedCompareChart] at h ⊢
    cases hp : weightedPrep raw params weights prefs ranges ms Ms with
    | error e =>
      rw [hp] at h
      simp only [Except.map] at h
      cases h
    | ok pj =>
      simp only [Except.map]
      have hrender : renderWeighted pj.1 pj.2 0 hex =
          ⟨[], [], 10, hex ++ "_weighted_compare.png"⟩ := by
        simp only [renderWeighted, headI]
        norm_num
      rw [hrender]
  · intro raw2 p pref2
    rfl

/-- C2 applied to a concrete two-row frame with weight vector [1]. -/
theorem spec_C2_witness : (0 : ℚ) ≤ 1 ∧ (1 : ℚ) ≤ 1 :=
  (spec_C2 [[some (Sum.inl 1)], [some (Sum.inl 3)]] [0] [1] ["higher"]
      (by norm_num) rfl).2 1
    (by norm_num +decide [sumColumns, allScoresOf, workingCol, scale, toNum,
      nanmin, nanmax, List.range_succ])

/-- C7 applied to a concrete file and a parameter absent from it. -/
theorem spec_C7_witness :
    (generateSingleCompareChart rawOK (some (Sum.inr "Missing")) 10 "lower"
        = .error .paramNotFound ↔
      some (Sum.inr "Missing") ∉ (detectValidData rawOK).2.cols) ∧
    (generateSingleCompareChart rawOK (some (Sum.inr "Missing")) 10 "lower"
        = .error .noValidRows ↔
      some (Sum.inr "Missing") ∈ (detectValidData rawOK).2.cols ∧
      validParamRows (detectValidData rawOK).1.rows
        ((colIdx (detectValidData rawOK).1.cols
          (some (Sum.inr "Missing"))).getD 0) = []) :=
  spec_C7 rawOK (some (Sum.inr "Missing")) 10 "lower" (by decide)

/-- C8 applied to a concrete successful run. -/
theorem spec_C8_witness :
    (chartOK.useLog = true ↔
      1000 < nanmax chartOK.values /
        max (nanmin chartOK.values) (1 / 1000000000)) ∧
    chartOK.xlabel = (if chartOK.useLog then
      cellToStr (some (Sum.inr "Score")) ++ " (log scale)"
      else cellToStr (some (Sum.inr "Score"))) ∧
    chartOK.values ≠ [] :=
  spec_C8 rawOK (some (Sum.inr "Score")) 10 "lower" chartOK (by
    simp +decide [generateSingleCompareChart, singlePrep, renderSingle,
      detectValidData, List.find?, Except.map, findHeader, countNonEmpty,
      buildTables, dfOf, ndfOf, widthOf, assignHeaders, dropEmptyRowsT,
      dropEmptyColsT, toNumericRows, dropEmptyColsN, dropEmptyRowsN, keepIdx,
      toNum, detectLabelColumn, cellKeywordMatch, keywords, hasSubstr,
      elemCell, colIdx, validParamRows, sortBy, insertBy, effTopN, nanmin,
      nanmax, cellToStr, chartOK, rawOK]
    norm_num)

/-- C10 applied to a concrete run that succeeds with `top_n = 1`. -/
theorem spec_C10_witness :
    generateWeightedCompareChart rawOK [some (Sum.inr "Score")] [1] ["higher"]
        [(none, none)] 0 none none "h" =
      .ok ⟨[], [], 10, "h" ++ "_weighted_compare.png"⟩ ∧
    (∀ raw2 p pref2, generateSingleCompareChart raw2 p 0 pref2 =
      generateSingleCompareChart raw2 p 10 pref2) :=
  spec_C10 rawOK [some (Sum.inr "Score")] [1] ["higher"] [(none, none)]
    none none "h" 1 ⟨["Y"], [1], 10, "h_weighted_compare.png"⟩ (by
    simp +decide [generateWeightedCompareChart, weightedPrep, detectValidData,
      List.find?, Except.map, findHeader, countNonEmpty, buildTables, dfOf,
      ndfOf, widthOf, assignHeaders, dropEmptyRowsT, dropEmptyColsT,
      toNumericRows, dropEmptyColsN, dropEmptyRowsN, keepIdx, toNum,
      detectLabelColumn, cellKeywordMatch, keywords, hasSubstr, elemCell,
      colIdx, assignParams, setColAux, ndfCol, dropnaSubset, applyRangesW,
      rangeStep, sumColumns, allScoresOf, workingCol, scale, nanmin, nanmax,
      renderWeighted, headI, sortBy, insertBy, cellToStr, rawOK,
      List.replicate, List.range_succ]
    norm_num [sortBy, insertBy, headI, cellToStr, List.replicate])
